import Mathlib

/-!
Verification of the rawhexdump terminal binary-file viewer.

The definitions below are a shallow embedding of the C sources:
* the bounded file cursor (`file.c`, the variant declaring
  `file_append_formatted_hexs`, which is the one `raw_terminal.c` links
  against): `file_move`, `file_tell`, `file_seek_set`, the four
  `file_append_*` read/encode routines;
* the terminal engine (`raw_terminal.c`): `term_output_save`,
  `term_output_change`, `term_output_adjust_after_sigwinch`,
  `term_process_keypress`, `term_screen_prepare_rows`,
  `term_screen_refresh`, `term_init`, `term_disable_raw_mode`,
  `term_get_win_size`.

Modelling conventions: the opened file is a list of byte values together
with the position indicator (`ftell`); `fseek`/`ftell` on the open file
are assumed to succeed at the OS level except where the C library
guarantees failure (seeking to a negative resulting offset fails with
EINVAL and does not move the indicator); heap allocation and `ab_append`
are assumed to succeed except where a claim is explicitly about their
failure, in which case the fallible step is a parameter.
-/

namespace Rawhexdump

/-- State of the opened file: `data` is the byte content (each entry is a
byte value `< 256`), `pos` the `ftell` position indicator. `file.len` in
the C source is `data.length`, computed once at `file_open`. -/
structure FileSt where
  data : List Nat
  pos : Nat
deriving DecidableEq, Repr

/-- `file_tell` from file.c: returns the current position (the file is
assumed open and `ftell` succeeding). -/
def file_tell (f : FileSt) : Nat := f.pos

/-- `file_move` from file.c: if `pos + bytes >= file.len` the move is
discarded; otherwise `fseek(file.h, bytes, SEEK_CUR)` is attempted, which
fails exactly when the resulting offset would be negative, in which case
the code falls back to `fseek(file.h, 0, SEEK_SET)`. -/
def file_move (bytes : Int) (f : FileSt) : FileSt :=
  if (f.pos : Int) + bytes ≥ (f.data.length : Int) then f
  else if (f.pos : Int) + bytes < 0 then { f with pos := 0 }
  else { f with pos := ((f.pos : Int) + bytes).toNat }

/-- `file_seek_set` from file.c: `fseek(file.h, bytes, SEEK_SET)` (callers
only pass saved non-negative positions). -/
def file_seek_set (bytes : Nat) (f : FileSt) : FileSt :=
  { f with pos := bytes }

/-- Claim C1: as stated, for all `m` with `0 ≤ offset + m ≤ total_length`,
`file_move m` changes `file_tell` by exactly `m`. This fails at the upper
boundary: with a 10-byte file at offset 8, the move `m = 2` satisfies
`0 ≤ 8 + 2 ≤ 10` but is entirely discarded (`pos + bytes >= file.len`
uses `>=`), leaving `file_tell` at 8 instead of 10. -/
theorem file_move_boundary_cex :
    (0 ≤ (8 : Int) + 2 ∧ (8 : Int) + 2 ≤ 10) ∧
    file_tell (file_move 2 ⟨List.replicate 10 0, 8⟩) = 8 ∧
    file_tell (file_move 2 ⟨List.replicate 10 0, 8⟩) ≠ 8 + 2 := by
  refine ⟨by omega, ?_, ?_⟩ <;> decide

/-- Claim C1, amended: for every open file cursor and relative move `m`:
if `0 ≤ offset + m < total_length` then `file_move m` changes `file_tell`
by exactly `m`; if `offset + m ≥ total_length` then `file_tell` is
unchanged (the move is entirely discarded, never clamped partway); and if
`offset + m < 0` then `file_tell` becomes 0. -/
theorem file_move_spec (f : FileSt) (m : Int) :
    (0 ≤ (f.pos : Int) + m ∧ (f.pos : Int) + m < (f.data.length : Int) →
      (file_tell (file_move m f) : Int) = (file_tell f : Int) + m) ∧
    ((f.pos : Int) + m ≥ (f.data.length : Int) →
      file_tell (file_move m f) = file_tell f) ∧
    ((f.pos : Int) + m < 0 → file_tell (file_move m f) = 0) := by
  unfold file_move file_tell
  refine ⟨fun h => ?_, fun h => ?_, fun h => ?_⟩
  · rw [if_neg (by omega), if_neg (by omega)]
    simp only
    omega
  · rw [if_pos h]
  · rw [if_neg (by omega), if_pos h]

/-- Concrete instances of the amended C1 statement: an in-bounds move
advances exactly, a move to the end is discarded, an underflowing move
resets to 0. -/
theorem file_move_spec_witness :
    (file_tell (file_move 3 ⟨List.replicate 10 0, 2⟩) : Int) = 2 + 3 ∧
    file_tell (file_move 2 ⟨List.replicate 10 0, 8⟩) = 8 ∧
    file_tell (file_move (-5) ⟨List.replicate 10 0, 2⟩) = 0 :=
  ⟨(file_move_spec ⟨List.replicate 10 0, 2⟩ 3).1 (by decide),
   (file_move_spec ⟨List.replicate 10 0, 8⟩ 2).2.1 (by decide),
   (file_move_spec ⟨List.replicate 10 0, 2⟩ (-5)).2.2 (by decide)⟩

/-! ## Encodings (file.c read routines) -/

/-- `CHAR_TO_HEX_UPPER(c)` from file.c: the high nibble of the byte as an
uppercase hexadecimal digit character code (the C macro computes
`(c & 0xF0) >> 4` on the promoted `char`, which equals the high nibble of
the byte value regardless of `char` signedness). -/
def CHAR_TO_HEX_UPPER (c : Nat) : Nat :=
  if ((c &&& 0xF0) >>> 4) < 10 then ((c &&& 0xF0) >>> 4) + 48
  else ((c &&& 0xF0) >>> 4) + 65 - 10

/-- `CHAR_TO_HEX_LOWER(c)` from file.c: the low nibble of the byte as an
uppercase hexadecimal digit character code. -/
def CHAR_TO_HEX_LOWER (c : Nat) : Nat :=
  if (c &&& 0x0F) < 10 then (c &&& 0x0F) + 48
  else (c &&& 0x0F) + 65 - 10

/-- The two hexadecimal digit characters `file_append_formatted_hexs`
writes at `temp_long[i*3]` and `temp_long[i*3+1]` for the byte `b`. -/
def hexByteChars (b : Nat) : List Char :=
  [Char.ofNat (CHAR_TO_HEX_UPPER b), Char.ofNat (CHAR_TO_HEX_LOWER b)]

/-- The `temp_long` buffer built by the loop of
`file_append_formatted_hexs`: two hex digits per byte and a single `' '`
at `temp_long[i*3+2]` exactly when `i < n_bytes_read - 1` (so no space
after the last byte). -/
def hexEncode : List Nat → List Char
  | [] => []
  | [b] => hexByteChars b
  | b :: rest => hexByteChars b ++ ' ' :: hexEncode rest

/-- Value of an uppercase hexadecimal digit character (`'0'`-`'9'`,
`'A'`-`'F'`); used only to state the decoding direction of claim C4. -/
def hexDigitVal (c : Char) : Nat :=
  if 48 ≤ c.toNat ∧ c.toNat ≤ 57 then c.toNat - 48
  else if 65 ≤ c.toNat ∧ c.toNat ≤ 70 then c.toNat - 65 + 10
  else 0

/-- Modelled from the spec: decoding a Hex-encoded row, "splitting on
single spaces and parsing each hex-digit pair" back to byte values. -/
def hexDecode : List Char → List Nat
  | c1 :: c2 :: ' ' :: rest => (16 * hexDigitVal c1 + hexDigitVal c2) :: hexDecode rest
  | [c1, c2] => [16 * hexDigitVal c1 + hexDigitVal c2]
  | _ => []

/-- A character is an uppercase hexadecimal digit. -/
def isUpperHexDigit (c : Char) : Prop :=
  (48 ≤ c.toNat ∧ c.toNat ≤ 57) ∨ (65 ≤ c.toNat ∧ c.toNat ≤ 70)

instance (c : Char) : Decidable (isUpperHexDigit c) := by
  unfold isUpperHexDigit
  infer_instance

/-- `isprint` in the C locale: byte values 0x20 through 0x7E. Bytes
0x80-0xFF reach `isprint` as negative `char` values and are not
printable in the C locale. -/
def isprint (b : Nat) : Bool := 32 ≤ b && b ≤ 126

/-- The character `file_append_formatted_chars` and `file_append_chars`
render for byte `b`: the byte itself when printable, `'.'` otherwise. -/
def formattedChar (b : Nat) : Char :=
  if isprint b then Char.ofNat b else '.'

/-- The `temp_long` buffer built by the loop of
`file_append_formatted_chars`: `temp_long[i*3] = ' '`,
`temp_long[i*3+1]` the (substituted) character, and a separator `' '` at
`temp_long[i*3+2]` exactly when `i < n_bytes_read - 1`. -/
def formattedCharsEncode : List Nat → List Char
  | [] => []
  | [b] => [' ', formattedChar b]
  | b :: rest => ' ' :: formattedChar b :: ' ' :: formattedCharsEncode rest

set_option maxRecDepth 4000 in
/-- Digit-level round trip: for every byte value, parsing the pair of
digit characters produced by the `CHAR_TO_HEX` macros recovers the byte. -/
theorem hexByteChars_roundtrip (b : Nat) (hb : b < 256) :
    16 * hexDigitVal (Char.ofNat (CHAR_TO_HEX_UPPER b)) +
      hexDigitVal (Char.ofNat (CHAR_TO_HEX_LOWER b)) = b := by
  revert hb
  revert b
  decide

set_option maxRecDepth 4000 in
/-- Both digit characters emitted for a byte are uppercase hex digits. -/
theorem hexByteChars_upper (b : Nat) (hb : b < 256) :
    ∀ c ∈ hexByteChars b, isUpperHexDigit c := by
  revert hb
  revert b
  decide

/-- The hex row equals the byte windows' digit pairs joined by single
spaces (hence no trailing space after the last byte). -/
theorem hexEncode_eq_intercalate (bs : List Nat) :
    hexEncode bs = List.intercalate [' '] (bs.map hexByteChars) := by
  induction bs with
  | nil => rfl
  | cons b rest ih =>
      cases rest with
      | nil => rfl
      | cons c rest2 =>
          rw [hexEncode, ih]
          · simp [List.intercalate, List.intersperse_cons_cons]
          · simp

/-- Decoding inverts encoding at every byte window of in-range bytes. -/
theorem hexDecode_hexEncode (bs : List Nat) (hb : ∀ b ∈ bs, b < 256) :
    hexDecode (hexEncode bs) = bs := by
  induction bs with
  | nil => rfl
  | cons b rest ih =>
      have hb0 : b < 256 := hb b (by simp)
      cases rest with
      | nil =>
          simp [hexEncode, hexByteChars, hexDecode,
            hexByteChars_roundtrip b hb0]
      | cons c rest2 =>
          have ih2 := ih (fun x hx => hb x (by simp [hx]))
          rw [hexEncode]
          · rw [hexByteChars]
            simp only [List.cons_append, List.nil_append]
            rw [hexDecode, ih2, hexByteChars_roundtrip b hb0]
          · simp

/-- Claim C4: for every byte window of length 0-256, the Hex encoding
renders each byte as exactly two uppercase hexadecimal digits, with
consecutive byte encodings separated by a single space and no trailing
space after the last byte, and decoding the resulting string (splitting
on single spaces and parsing each hex-digit pair) reproduces the
original byte window exactly. -/
theorem hexEncode_roundtrip (bs : List Nat) (hb : ∀ b ∈ bs, b < 256)
    (hlen : bs.length ≤ 256) :
    hexDecode (hexEncode bs) = bs ∧
    hexEncode bs = List.intercalate [' '] (bs.map hexByteChars) ∧
    ∀ b ∈ bs, ∀ c ∈ hexByteChars b, isUpperHexDigit c :=
  ⟨hexDecode_hexEncode bs hb, hexEncode_eq_intercalate bs,
   fun b hbmem => hexByteChars_upper b (hb b hbmem)⟩

/-- Concrete instance of C4 at the window `[0, 171, 255]`. -/
theorem hexEncode_roundtrip_witness :
    hexDecode (hexEncode [0, 171, 255]) = [0, 171, 255] ∧
    hexEncode [0, 171, 255] =
      List.intercalate [' '] (List.map hexByteChars [0, 171, 255]) ∧
    ∀ b ∈ [0, 171, 255], ∀ c ∈ hexByteChars b, isUpperHexDigit c :=
  hexEncode_roundtrip [0, 171, 255] (by decide) (by decide)

/-- Modelled from the spec: the output shape asserted by claim C5 — "the
encoded output of an n-byte window consists of n space-prefixed
characters and nothing else". -/
def claimedFormattedEncode (bs : List Nat) : List Char :=
  (bs.map (fun b => [' ', formattedChar b])).flatten

/-- Claim C5: as stated, the FormattedChar encoding of an n-byte window
would be exactly the n space-prefixed characters. This fails already at
the 2-byte window `[65, 66]` (`"AB"`): the loop also writes a separator
space at `temp_long[i*3+2]` between consecutive bytes, producing
`" A  B"` (5 characters), not `" A B"` (4 characters). -/
theorem formattedChars_sep_cex :
    formattedCharsEncode [65, 66] ≠ claimedFormattedEncode [65, 66] := by
  decide

/-- The FormattedChar row equals the bytes' space-prefixed characters
joined by single separator spaces. -/
theorem formattedCharsEncode_eq_intercalate (bs : List Nat) :
    formattedCharsEncode bs =
      List.intercalate [' '] (bs.map (fun b => [' ', formattedChar b])) := by
  induction bs with
  | nil => rfl
  | cons b rest ih =>
      cases rest with
      | nil => rfl
      | cons c rest2 =>
          rw [formattedCharsEncode, ih]
          · simp [List.intercalate, List.intersperse_cons_cons]
          · simp

/-- Claim C5, amended: for every non-empty byte window, each byte
renders as one leading space followed by its character (printable bytes
as themselves, non-printable bytes as `'.'`), and consecutive byte
renderings are separated by one additional single space, with no
trailing separator after the last byte; so an n-byte window encodes to
exactly `3n - 1` characters, not to `n` space-prefixed characters
alone. -/
theorem formattedCharsEncode_spec (bs : List Nat) (h : bs ≠ []) :
    formattedCharsEncode bs =
      List.intercalate [' '] (bs.map (fun b => [' ', formattedChar b])) ∧
    (formattedCharsEncode bs).length = 3 * bs.length - 1 := by
  refine ⟨formattedCharsEncode_eq_intercalate bs, ?_⟩
  induction bs with
  | nil => exact absurd rfl h
  | cons b rest ih =>
      cases rest with
      | nil => rfl
      | cons c rest2 =>
          have := ih (by simp)
          rw [formattedCharsEncode]
          · simp only [List.length_cons] at this ⊢
            omega
          · simp

/-- Concrete instance of the amended C5 statement at the window
`[65, 66]` (`"AB"`, encoding to `" A  B"`). -/
theorem formattedCharsEncode_spec_witness :
    formattedCharsEncode [65, 66] =
      List.intercalate [' ']
        (List.map (fun b => [' ', formattedChar b]) [65, 66]) ∧
    (formattedCharsEncode [65, 66]).length = 3 * 2 - 1 :=
  formattedCharsEncode_spec [65, 66] (by decide)

/-! ## File read routines (file.c) -/

/-- The byte window a call to `fread(temp, 1, len, file.h)` returns at
the current position: up to `len` bytes starting at `pos`, truncated at
end of file. -/
def file_chunk (f : FileSt) (len : Nat) : List Nat :=
  (f.data.drop f.pos).take len

/-- `file_append_bytes` from file.c: returns `(n_bytes_read, file state
after the read, buffer with the raw bytes appended)`. A `len` of 0 is
rejected; a short read at end of file is not an error (`feof`). -/
def file_append_bytes (f : FileSt) (ab : List Char) (len : Nat) :
    Nat × FileSt × List Char :=
  if len = 0 then (0, f, ab)
  else
    let temp := file_chunk f len
    (temp.length, { f with pos := f.pos + temp.length },
      ab ++ temp.map Char.ofNat)

/-- `file_append_formatted_hexs` from file.c: reads the window through
`file_append_bytes` (into the local `temp` buffer, which here is
`file_chunk f len`) and appends its hex encoding `temp_long`. A read of
0 bytes is an error and appends nothing. -/
def file_append_formatted_hexs (f : FileSt) (ab : List Char) (len : Nat) :
    Nat × FileSt × List Char :=
  if len = 0 then (0, f, ab)
  else
    let temp := file_chunk f len
    let f1 : FileSt := { f with pos := f.pos + temp.length }
    if temp.length = 0 then (0, f1, ab)
    else (temp.length, f1, ab ++ hexEncode temp)

/-- `file_append_formatted_chars` from file.c: like the hex routine but
appending the space-prefixed printable-character encoding. -/
def file_append_formatted_chars (f : FileSt) (ab : List Char) (len : Nat) :
    Nat × FileSt × List Char :=
  if len = 0 then (0, f, ab)
  else
    let temp := file_chunk f len
    let f1 : FileSt := { f with pos := f.pos + temp.length }
    if temp.length = 0 then (0, f1, ab)
    else (temp.length, f1, ab ++ formattedCharsEncode temp)

/-- `file_append_chars` from file.c: appends the raw printable-character
encoding (no separators). -/
def file_append_chars (f : FileSt) (ab : List Char) (len : Nat) :
    Nat × FileSt × List Char :=
  if len = 0 then (0, f, ab)
  else
    let temp := file_chunk f len
    let f1 : FileSt := { f with pos := f.pos + temp.length }
    if temp.length = 0 then (0, f1, ab)
    else (temp.length, f1, ab ++ temp.map formattedChar)

/-! ## Terminal output state (raw_terminal.c) -/

/-- `term_output_id_t` from raw_terminal.c. -/
inductive term_output_id where
  | FORMHEX
  | FORMCHAR
  | CHAR
deriving DecidableEq, Repr

/-- `keypress_t` from raw_terminal.c. -/
inductive keypress_t where
  | IGNORE
  | ACT
  | QUIT
  | ERROR
deriving DecidableEq, Repr

/-- One `term_output_t`: saved scroll position and row width. (The C
struct also holds its `id` and encoding function pointer; here the id is
the field name in `TermSt` and the encoder is selected by
`file_read_func`.) -/
structure term_output_t where
  pos : Nat
  row_len : Nat
deriving DecidableEq, Repr

/-- The static terminal state of raw_terminal.c: the three output
variants, which one `term.active_output` points to, and the screen
geometry. -/
structure TermSt where
  output_formhex : term_output_t
  output_formchar : term_output_t
  output_char : term_output_t
  active : term_output_id
  screen_rows : Nat
  screen_cols : Nat
deriving DecidableEq, Repr

/-- The output variant `term.active_output` points to. -/
def active_output (st : TermSt) : term_output_t :=
  match st.active with
  | .FORMHEX => st.output_formhex
  | .FORMCHAR => st.output_formchar
  | .CHAR => st.output_char

/-- The `file_read_func` function pointer stored in each
`term_output_t`, selected by the variant id. -/
def file_read_func (id : term_output_id) :
    FileSt → List Char → Nat → Nat × FileSt × List Char :=
  match id with
  | .FORMHEX => file_append_formatted_hexs
  | .FORMCHAR => file_append_formatted_chars
  | .CHAR => file_append_chars

/-- VT100 erase-to-end-of-line sequence appended after each row. -/
def VT100_ERASE_LINE : List Char := ['\x1b', '[', '0', 'K']

/-- VT100 cursor-to-top-left sequence. -/
def VT100_CUR_TOP_LEFT : List Char := ['\x1b', '[', '1', ';', '1', 'H']

/-- The row loop of `term_screen_prepare_rows`, by the number of rows
still to draw (`rows_left = term.screen_rows - y`; the C test
`y < term.screen_rows - 1` for appending `"\r\n"` is `rows_left > 1`,
i.e. the successor argument of the recursive call is positive). Returns
`(bytes, file state, buffer)` where `bytes` is the total of the
encoders' return values. -/
def term_screen_prepare_rows_loop (id : term_output_id) (row_len : Nat) :
    Nat → FileSt → List Char → Nat × FileSt × List Char
  | 0, f, ab => (0, f, ab)
  | rows_left + 1, f, ab =>
      let r := file_read_func id f ab row_len
      let ab1 := r.2.2 ++ VT100_ERASE_LINE
      let ab2 := if 0 < rows_left then ab1 ++ ['\r', '\n'] else ab1
      let rest := term_screen_prepare_rows_loop id row_len rows_left r.2.1 ab2
      (r.1 + rest.1, rest.2)

/-- `term_screen_prepare_rows` from raw_terminal.c: draws
`term.screen_rows` rows through the active output's `file_read_func`
with its `row_len`, then `file_move(-(long int)bytes)` rewinds the file
position indicator by the total the encoders reported. Returns the
final file state and the filled buffer. -/
def term_screen_prepare_rows (st : TermSt) (f : FileSt) (ab : List Char) :
    FileSt × List Char :=
  let r := term_screen_prepare_rows_loop st.active (active_output st).row_len
    st.screen_rows f ab
  (file_move (-(r.1 : Int)) r.2.1, r.2.2)

/-- Each per-row encoder's return value is exactly the number of source
bytes consumed: the data is untouched, the position advances by the
returned count, and a nonzero count starts inside the file and stays
within it. -/
theorem file_read_func_consumed (id : term_output_id) (f : FileSt)
    (ab : List Char) (n : Nat) :
    (file_read_func id f ab n).2.1.data = f.data ∧
    (file_read_func id f ab n).2.1.pos = f.pos + (file_read_func id f ab n).1 ∧
    ((file_read_func id f ab n).1 = 0 ∨
      (f.pos < f.data.length ∧
        f.pos + (file_read_func id f ab n).1 ≤ f.data.length)) := by
  have hlen : (file_chunk f n).length = min n (f.data.length - f.pos) := by
    simp [file_chunk]
  cases id <;>
  · simp only [file_read_func, file_append_formatted_hexs,
      file_append_formatted_chars, file_append_chars]
    by_cases hn : n = 0
    · simp [hn]
    · simp only [hn, if_false]
      by_cases h0 : (file_chunk f n).length = 0
      · simp [h0]
      · simp only [h0, if_false]
        refine ⟨trivial, trivial, Or.inr ⟨?_, ?_⟩⟩ <;> omega

/-- Row-loop invariant of `term_screen_prepare_rows`: the accumulated
`bytes` total is exactly the net advance of the file position, and a
nonzero total starts inside the file and stays within it. -/
theorem term_screen_prepare_rows_loop_consumed (id : term_output_id)
    (row_len : Nat) (rows : Nat) :
    ∀ (f : FileSt) (ab : List Char),
      (term_screen_prepare_rows_loop id row_len rows f ab).2.1.data = f.data ∧
      (term_screen_prepare_rows_loop id row_len rows f ab).2.1.pos =
        f.pos + (term_screen_prepare_rows_loop id row_len rows f ab).1 ∧
      ((term_screen_prepare_rows_loop id row_len rows f ab).1 = 0 ∨
        (f.pos < f.data.length ∧
          f.pos + (term_screen_prepare_rows_loop id row_len rows f ab).1 ≤
            f.data.length)) := by
  induction rows with
  | zero => intro f ab; simp [term_screen_prepare_rows_loop]
  | succ k ih =>
      intro f ab
      obtain ⟨hd1, hp1, hc1⟩ := file_read_func_consumed id f ab row_len
      simp only [term_screen_prepare_rows_loop]
      obtain ⟨hd2, hp2, hc2⟩ := ih (file_read_func id f ab row_len).2.1
        (if 0 < k then (file_read_func id f ab row_len).2.2 ++
            VT100_ERASE_LINE ++ ['\r', '\n']
          else (file_read_func id f ab row_len).2.2 ++ VT100_ERASE_LINE)
      rw [hd1] at hd2
      rw [hp1] at hp2 hc2
      rw [hd1] at hc2
      exact ⟨hd2, by omega, by omega⟩

/-- Claim C3: for every open file cursor and every terminal geometry,
preparing one full frame never net-changes the file position:
`file_tell` after `term_screen_prepare_rows` returns equals `file_tell`
before the call, because the routine rewinds by the total number of
source bytes the per-row encoders reported as consumed. -/
theorem term_screen_prepare_rows_preserves_tell (st : TermSt) (f : FileSt)
    (ab : List Char) :
    file_tell (term_screen_prepare_rows st f ab).1 = file_tell f := by
  obtain ⟨hd, hp, hc⟩ := term_screen_prepare_rows_loop_consumed st.active
    (active_output st).row_len st.screen_rows f ab
  unfold term_screen_prepare_rows file_tell file_move
  simp only
  rw [hd, hp]
  split
  · next hge =>
      rw [hp]
      omega
  · split
    · next _ hlt =>
        simp only
        omega
    · next _ _ =>
        simp only
        omega

/-! ## Output switching and resize adjustment (raw_terminal.c) -/

/-- `term_output_save` from raw_terminal.c: stores `file_tell()` into the
active output's `pos`; FORMHEX and FORMCHAR additionally mirror the value
into each other so the two share position; CHAR mirrors into nothing. -/
def term_output_save (st : TermSt) (f : FileSt) : TermSt :=
  let curr_pos := file_tell f
  match st.active with
  | .FORMHEX =>
      { st with
          output_formhex := { st.output_formhex with pos := curr_pos },
          output_formchar := { st.output_formchar with pos := curr_pos } }
  | .FORMCHAR =>
      { st with
          output_formchar := { st.output_formchar with pos := curr_pos },
          output_formhex := { st.output_formhex with pos := curr_pos } }
  | .CHAR =>
      { st with output_char := { st.output_char with pos := curr_pos } }

/-- `term_output_change` from raw_terminal.c: saves the outgoing output,
repoints `term.active_output` at the requested variant, and
`file_seek_set`s to the incoming variant's saved `pos`. -/
def term_output_change (id : term_output_id) (st : TermSt) (f : FileSt) :
    TermSt × FileSt :=
  let st1 := term_output_save st f
  let st2 := { st1 with active := id }
  (st2, file_seek_set (active_output st2).pos f)

/-- `term_get_win_size` from raw_terminal.c: the `ioctl(TIOCGWINSZ)`
result (`none` models the call itself failing); a reported window with
zero rows or zero columns is rejected exactly like a failed call. -/
def term_get_win_size (ioctl : Option (Nat × Nat)) : Option (Nat × Nat) :=
  match ioctl with
  | none => none
  | some (ws_row, ws_col) =>
      if ws_row = 0 ∨ ws_col = 0 then none else some (ws_row, ws_col)

/-- `term_output_adjust_after_sigwinch` from raw_terminal.c, after a
successful `term_get_win_size` reported `rows × cols`: saves the active
output, recomputes every `row_len` (`cols / 3` for FORMHEX and FORMCHAR,
`cols` for CHAR), realigns every `pos` down to the nearest multiple of
its new `row_len` (`pos - pos % row_len`), and seeks the file to the
active output's realigned `pos`. -/
def term_output_adjust_after_sigwinch (rows cols : Nat) (st : TermSt)
    (f : FileSt) : TermSt × FileSt :=
  let st0 := { st with screen_rows := rows, screen_cols := cols }
  let st1 := term_output_save st0 f
  let hex_rl := st1.screen_cols / 3
  let st2 := { st1 with
    output_formhex :=
      { pos := st1.output_formhex.pos - st1.output_formhex.pos % hex_rl,
        row_len := hex_rl },
    output_formchar :=
      { pos := st1.output_formchar.pos - st1.output_formchar.pos % hex_rl,
        row_len := hex_rl },
    output_char :=
      { pos := st1.output_char.pos - st1.output_char.pos % st1.screen_cols,
        row_len := st1.screen_cols } }
  (st2, file_seek_set (active_output st2).pos f)

/-! ## Keypress processing (raw_terminal.c) -/

/-- `RHD_TERM_CTRL_KEY(k)` from raw_terminal.c. -/
def RHD_TERM_CTRL_KEY (k : Nat) : Nat := k &&& 0x1f

/-- The `'d'`/`'D'` loop of `term_process_keypress`: `term.screen_rows`
successive calls to `file_move(row_len)`, each individually
boundary-checked. -/
def file_move_rows_loop (row_len : Nat) : Nat → FileSt → FileSt
  | 0, f => f
  | i + 1, f => file_move_rows_loop row_len i (file_move (row_len : Int) f)

/-- `term_process_keypress` from raw_terminal.c, given the byte `c` that
`term_read_key` read (key byte values: CTRL-Q 17, `w` 119, `W` 87, `s`
115, `S` 83, `a` 97, `A` 65, `d` 100, `D` 68, `h` 104, `H` 72, `c` 99,
`C` 67, CTRL-C 3). `row_len` is captured from the active output after
the blocking read returns. -/
def term_process_keypress (c : Nat) (st : TermSt) (f : FileSt) :
    keypress_t × TermSt × FileSt :=
  let row_len := (active_output st).row_len
  if c = RHD_TERM_CTRL_KEY 113 then (.QUIT, st, f)
  else if c = 119 ∨ c = 87 then (.ACT, st, file_move (-(row_len : Int)) f)
  else if c = 115 ∨ c = 83 then (.ACT, st, file_move (row_len : Int) f)
  else if c = 97 ∨ c = 65 then
    (.ACT, st, file_move (-((st.screen_rows : Int) * (row_len : Int))) f)
  else if c = 100 ∨ c = 68 then
    (.ACT, st, file_move_rows_loop row_len st.screen_rows f)
  else if c = 104 ∨ c = 72 then
    if st.active = .FORMHEX then (.IGNORE, st, f)
    else
      let r := term_output_change .FORMHEX st f
      (.ACT, r.1, r.2)
  else if c = 99 ∨ c = 67 then
    if st.active = .FORMCHAR then (.IGNORE, st, f)
    else
      let r := term_output_change .FORMCHAR st f
      (.ACT, r.1, r.2)
  else if c = RHD_TERM_CTRL_KEY 99 then
    if st.active = .CHAR then (.IGNORE, st, f)
    else
      let r := term_output_change .CHAR st f
      (.ACT, r.1, r.2)
  else (.IGNORE, st, f)

/-! ## Raw-mode lifecycle (raw_terminal.c) -/

/-- Success or failure of each fallible call `term_init` and
`term_disable_raw_mode` make, in program order. -/
structure RawEnv where
  file_open_ok : Bool
  atexit_ok : Bool
  sigaction_ok : Bool
  raise_ok : Bool
  sigwinch_ok : Bool
  tcgetattr_ok : Bool
  tcsetattr_ok : Bool
  file_close_ok : Bool
deriving DecidableEq, Repr

/-- Observable raw-mode controller state: the `term_is_init` flag, how
many times `tcsetattr` was invoked (each invocation rewrites the
terminal attributes), and the transcript of queued warnings / printed
errors. -/
structure RawSt where
  term_is_init : Bool
  tcsetattr_calls : Nat
  messages : List String
deriving DecidableEq, Repr

/-- `term_init` from raw_terminal.c: if already initialized, queues a
warning and reports success without any further call; otherwise runs
`file_open` (1), `atexit` (2), `sigaction` (3), `raise` (4), the
SIGWINCH-handler check (5), `tcgetattr` (6) and `tcsetattr` (7),
returning the numbered failure code of the first to fail, and on full
success sets `term_is_init`. -/
def term_init (env : RawEnv) (s : RawSt) : Int × RawSt :=
  if s.term_is_init then
    (0, { s with messages :=
      s.messages ++ ["WARNING: Terminal is already initialized!"] })
  else if env.file_open_ok = false then
    (1, { s with messages := s.messages ++ ["ERROR: Could not open file!"] })
  else if env.atexit_ok = false then
    (2, { s with messages :=
      s.messages ++ ["ERROR: Could not set exit handler!"] })
  else if env.sigaction_ok = false then
    (3, { s with messages :=
      s.messages ++ ["ERROR: Could not set sigaction for SIGWINCH!"] })
  else if env.raise_ok = false then
    (4, { s with messages :=
      s.messages ++ ["ERROR: Could not raise SIGWINCH!"] })
  else if env.sigwinch_ok = false then
    (5, { s with messages :=
      s.messages ++ ["ERROR: Error while handling SIGWINCH!"] })
  else if env.tcgetattr_ok = false then
    (6, { s with messages :=
      s.messages ++ ["ERROR: Could not get terminal initial state!"] })
  else if env.tcsetattr_ok = false then
    (7, { s with
            tcsetattr_calls := s.tcsetattr_calls + 1,
            messages :=
              s.messages ++ ["ERROR: Could not set terminal raw state!"] })
  else
    (0, { s with
            term_is_init := true,
            tcsetattr_calls := s.tcsetattr_calls + 1 })

/-- `term_disable_raw_mode` from raw_terminal.c: if not initialized,
prints a warning and reports success without touching the terminal;
otherwise restores the saved attributes with `tcsetattr` (1 on failure),
closes the file (2 on failure), flushes the error queue and clears
`term_is_init`. -/
def term_disable_raw_mode (env : RawEnv) (s : RawSt) : Int × RawSt :=
  if s.term_is_init = false then
    (0, { s with messages :=
      s.messages ++ ["WARNING: Terminal was not initialized!"] })
  else if env.tcsetattr_ok = false then
    (1, { s with
            tcsetattr_calls := s.tcsetattr_calls + 1,
            messages :=
              s.messages ++
                ["ERROR: Could not set terminal initial state!"] })
  else if env.file_close_ok = false then
    (2, { s with
            tcsetattr_calls := s.tcsetattr_calls + 1,
            messages :=
              s.messages ++ ["ERROR: Could not close opened file!"] })
  else
    (0, { s with
            term_is_init := false,
            tcsetattr_calls := s.tcsetattr_calls + 1 })

/-! ## Screen refresh (raw_terminal.c) -/

/-- `term_screen_refresh` from raw_terminal.c, parameterized over the
row-preparation step `prep` (the C code calls
`term_screen_prepare_rows(&ab)` here and DISCARDS its `int` result:
`prep`'s first component is never inspected) and over the success of the
two checked `ab_append` calls and the final `write`. Returns the
function's result code and the bytes written to the terminal (`[]` when
the single atomic write did not succeed). -/
def term_screen_refresh (prep : List Char → Int × List Char)
    (append1_ok append2_ok write_ok : Bool) : Int × List Char :=
  if append1_ok = false then (1, [])
  else
    let ab := VT100_CUR_TOP_LEFT
    let pr := prep ab
    if append2_ok = false then (1, [])
    else
      let ab2 := pr.2 ++ VT100_CUR_TOP_LEFT
      if write_ok = false then (1, [])
      else (0, ab2)

/-- The terminal state of claim C2's scenario: Hex active, row width 4,
4-row (13-column) terminal. -/
def c2_term_st : TermSt :=
  { output_formhex := { pos := 0, row_len := 4 },
    output_formchar := { pos := 0, row_len := 4 },
    output_char := { pos := 0, row_len := 13 },
    active := .FORMHEX,
    screen_rows := 4,
    screen_cols := 13 }

/-- The file of claim C2's scenario: 10 bytes, cursor at offset 0. -/
def c2_file_st : FileSt := { data := List.replicate 10 0, pos := 0 }

/-- Claim C2: as stated, pressing down-one-page (`'d'`, byte 100) on the
10-byte file would leave `file_tell` at 0 because a single 16-byte page
move would be discarded. In fact the `'d'` handler performs
`term.screen_rows` separate `file_move(row_len)` calls, each
individually boundary-checked (0 → 4 → 8 → discarded → discarded), so
`file_tell` ends at 8, not 0. -/
theorem page_down_keypress_cex :
    file_tell (term_process_keypress 100 c2_term_st c2_file_st).2.2 ≠ 0 := by
  decide

/-- Claim C2, amended: in the 10-byte scenario the down-one-page key
(`'d'` byte 100, `'D'` byte 68) performs 4 successive row moves of 4
bytes, each individually discarded at the boundary, leaving `file_tell`
at 8 (the last row start reachable), and still yields the Acting
(redraw) outcome. -/
theorem page_down_keypress_spec :
    (term_process_keypress 100 c2_term_st c2_file_st).1 = keypress_t.ACT ∧
    file_tell (term_process_keypress 100 c2_term_st c2_file_st).2.2 = 8 ∧
    (term_process_keypress 68 c2_term_st c2_file_st).1 = keypress_t.ACT ∧
    file_tell (term_process_keypress 68 c2_term_st c2_file_st).2.2 = 8 := by
  decide

/-! ## Event-loop operations touching the output positions -/

/-- The event-loop operations that read or write the saved output
positions: an explicit save, a variant switch, and a cursor move. -/
inductive term_op where
  | save : term_op
  | change : term_output_id → term_op
  | move : Int → term_op

/-- Effect of one operation on the terminal and file state. -/
def run_op : term_op → TermSt × FileSt → TermSt × FileSt
  | .save, s => (term_output_save s.1 s.2, s.2)
  | .change id, s => term_output_change id s.1 s.2
  | .move m, s => (s.1, file_move m s.2)

/-- Effect of a sequence of operations, first operation first. -/
def run_ops : List term_op → TermSt × FileSt → TermSt × FileSt
  | [], s => s
  | op :: rest, s => run_ops rest (run_op op s)

/-- `term_output_save` with a non-RawChar active variant never writes
RawChar's saved position and never changes which variant is active. -/
theorem term_output_save_preserves_char (st : TermSt) (f : FileSt)
    (h : st.active ≠ .CHAR) :
    (term_output_save st f).output_char = st.output_char ∧
    (term_output_save st f).active = st.active := by
  cases hact : st.active with
  | FORMHEX => simp [term_output_save, hact]
  | FORMCHAR => simp [term_output_save, hact]
  | CHAR => exact absurd hact h

/-- A save, a switch to Hex or FormattedChar, or a move, starting from a
non-RawChar active variant, keeps the active variant non-RawChar and
leaves RawChar's saved position untouched. -/
theorem run_op_preserves_char (op : term_op) (s : TermSt × FileSt)
    (hop : op = term_op.save ∨ op = term_op.change .FORMHEX ∨
      op = term_op.change .FORMCHAR ∨ ∃ m, op = term_op.move m)
    (h : s.1.active ≠ .CHAR) :
    (run_op op s).1.active ≠ .CHAR ∧
    (run_op op s).1.output_char.pos = s.1.output_char.pos := by
  obtain ⟨hc, ha⟩ := term_output_save_preserves_char s.1 s.2 h
  rcases hop with rfl | rfl | rfl | ⟨m, rfl⟩
  · exact ⟨by rw [run_op, ha]; exact h, by rw [run_op, hc]⟩
  · refine ⟨by simp [run_op, term_output_change], ?_⟩
    show (term_output_save s.1 s.2).output_char.pos = s.1.output_char.pos
    rw [hc]
  · refine ⟨by simp [run_op, term_output_change], ?_⟩
    show (term_output_save s.1 s.2).output_char.pos = s.1.output_char.pos
    rw [hc]
  · exact ⟨h, rfl⟩

/-- Sequence version of `run_op_preserves_char`. -/
theorem run_ops_preserves_char (ops : List term_op) :
    ∀ s : TermSt × FileSt,
      (∀ op ∈ ops, op = term_op.save ∨ op = term_op.change .FORMHEX ∨
        op = term_op.change .FORMCHAR ∨ ∃ m, op = term_op.move m) →
      s.1.active ≠ .CHAR →
      (run_ops ops s).1.active ≠ .CHAR ∧
      (run_ops ops s).1.output_char.pos = s.1.output_char.pos := by
  induction ops with
  | nil => intro s _ h; exact ⟨h, rfl⟩
  | cons op rest ih =>
      intro s hops h
      obtain ⟨h1, h2⟩ := run_op_preserves_char op s (hops op (by simp)) h
      obtain ⟨h3, h4⟩ := ih (run_op op s)
        (fun o ho => hops o (by simp [ho])) h1
      exact ⟨by rw [run_ops]; exact h3, by rw [run_ops, h4, h2]⟩

/-- A Hex-active terminal state used in concrete C6 instances. -/
def c6_hex_st : TermSt :=
  { output_formhex := { pos := 0, row_len := 4 },
    output_formchar := { pos := 0, row_len := 4 },
    output_char := { pos := 7, row_len := 13 },
    active := .FORMHEX,
    screen_rows := 4,
    screen_cols := 13 }

/-- A 10-byte file at offset 3 used in concrete C6 instances. -/
def c6_file : FileSt := { data := List.replicate 10 0, pos := 3 }

/-- Claim C6: (i) immediately after a switch from Hex to FormattedChar
or back, both variants hold the same saved position and `file_tell`
reports that shared value, and RawChar's saved position is untouched;
(ii) RawChar's saved position is preserved exactly across any round trip
that leaves RawChar for Hex/FormattedChar, performs any sequence of
saves, Hex/FormattedChar switches and moves, and switches back to
RawChar — `file_tell` then reports the position RawChar was left at. -/
theorem output_position_sharing :
    (∀ (st : TermSt) (f : FileSt), st.active = .FORMHEX →
      (term_output_change .FORMCHAR st f).1.output_formhex.pos =
        (term_output_change .FORMCHAR st f).1.output_formchar.pos ∧
      file_tell (term_output_change .FORMCHAR st f).2 =
        (term_output_change .FORMCHAR st f).1.output_formchar.pos ∧
      (term_output_change .FORMCHAR st f).1.output_char.pos =
        st.output_char.pos) ∧
    (∀ (st : TermSt) (f : FileSt), st.active = .FORMCHAR →
      (term_output_change .FORMHEX st f).1.output_formhex.pos =
        (term_output_change .FORMHEX st f).1.output_formchar.pos ∧
      file_tell (term_output_change .FORMHEX st f).2 =
        (term_output_change .FORMHEX st f).1.output_formhex.pos ∧
      (term_output_change .FORMHEX st f).1.output_char.pos =
        st.output_char.pos) ∧
    (∀ (st : TermSt) (f : FileSt) (id : term_output_id)
      (ops : List term_op), st.active = .CHAR →
      (id = .FORMHEX ∨ id = .FORMCHAR) →
      (∀ op ∈ ops, op = term_op.save ∨ op = term_op.change .FORMHEX ∨
        op = term_op.change .FORMCHAR ∨ ∃ m, op = term_op.move m) →
      file_tell (run_op (term_op.change .CHAR)
        (run_ops ops (run_op (term_op.change id) (st, f)))).2 =
        file_tell f) := by
  refine ⟨?_, ?_, ?_⟩
  · intro st f hact
    simp [term_output_change, term_output_save, active_output, hact,
      file_seek_set, file_tell]
  · intro st f hact
    simp [term_output_change, term_output_save, active_output, hact,
      file_seek_set, file_tell]
  · intro st f id ops hact hid hops
    have h1 : (run_op (term_op.change id) (st, f)).1.active ≠ .CHAR := by
      rcases hid with rfl | rfl <;>
        simp [run_op, term_output_change]
    have h2 : (run_op (term_op.change id) (st, f)).1.output_char.pos =
        f.pos := by
      rcases hid with rfl | rfl <;>
        simp [run_op, term_output_change, term_output_save, hact, file_tell]
    obtain ⟨h3, h4⟩ := run_ops_preserves_char ops
      (run_op (term_op.change id) (st, f)) hops h1
    set s2 := run_ops ops (run_op (term_op.change id) (st, f)) with hs2
    obtain ⟨hc, _⟩ := term_output_save_preserves_char s2.1 s2.2 h3
    show file_tell (term_output_change .CHAR s2.1 s2.2).2 = file_tell f
    simp only [term_output_change, active_output, file_seek_set, file_tell]
    rw [hc]
    rw [h4, h2]

/-- Concrete instances of C6: a Hex→FormattedChar switch at offset 3,
the reverse switch, and a RawChar round trip across a save, a switch and
a move. -/
theorem output_position_sharing_witness :
    ((term_output_change .FORMCHAR c6_hex_st c6_file).1.output_formhex.pos =
        (term_output_change .FORMCHAR c6_hex_st
          c6_file).1.output_formchar.pos ∧
      file_tell (term_output_change .FORMCHAR c6_hex_st c6_file).2 =
        (term_output_change .FORMCHAR c6_hex_st
          c6_file).1.output_formchar.pos ∧
      (term_output_change .FORMCHAR c6_hex_st c6_file).1.output_char.pos =
        c6_hex_st.output_char.pos) ∧
    file_tell (run_op (term_op.change .CHAR)
      (run_ops [term_op.save, term_op.change .FORMCHAR, term_op.move 2]
        (run_op (term_op.change .FORMHEX)
          ({ c6_hex_st with active := .CHAR }, c6_file)))).2 =
      file_tell c6_file :=
  ⟨output_position_sharing.1 c6_hex_st c6_file rfl,
   output_position_sharing.2.2 { c6_hex_st with active := .CHAR } c6_file
     .FORMHEX [term_op.save, term_op.change .FORMCHAR, term_op.move 2]
     rfl (Or.inl rfl) (by
       intro op hop
       simp only [List.mem_cons, List.not_mem_nil, or_false] at hop
       rcases hop with rfl | rfl | rfl
       · exact Or.inl rfl
       · exact Or.inr (Or.inr (Or.inl rfl))
       · exact Or.inr (Or.inr (Or.inr ⟨2, rfl⟩)))⟩

/-- Realigning down to the nearest multiple produces a multiple:
`(p - p % w) % w = 0`. -/
theorem sub_mod_mod (p w : Nat) : (p - p % w) % w = 0 := by
  have h := Nat.div_add_mod p w
  have heq : p - p % w = w * (p / w) := by omega
  rw [heq, Nat.mul_mod_right]

/-- The state of claim C7's scenario before the switch away from Hex:
Hex active at position 8 with row width 4 (13 columns wide). -/
def c7_hex_st : TermSt :=
  { output_formhex := { pos := 8, row_len := 4 },
    output_formchar := { pos := 8, row_len := 4 },
    output_char := { pos := 0, row_len := 13 },
    active := .FORMHEX,
    screen_rows := 4,
    screen_cols := 13 }

/-- The file of claim C7's scenario: 20 bytes, cursor at offset 8. -/
def c7_file : FileSt := { data := List.replicate 20 0, pos := 8 }

/-- Claim C7: after every resize adjustment (with at least 3 columns, so
that the C modulo realignment is defined), each of the three output
variants' positions is a multiple of that variant's newly computed row
width; in particular switching from Hex at position 8 to FormattedChar
and resizing to 15 columns (row width 4 → 5) leaves FormattedChar at
position `8 - (8 % 5) = 5`. -/
theorem adjust_realigns_positions :
    (∀ (rows cols : Nat) (st : TermSt) (f : FileSt), 3 ≤ cols →
      (term_output_adjust_after_sigwinch rows cols st f).1.output_formhex.pos %
        (term_output_adjust_after_sigwinch rows cols st
          f).1.output_formhex.row_len = 0 ∧
      (term_output_adjust_after_sigwinch rows cols st
          f).1.output_formchar.pos %
        (term_output_adjust_after_sigwinch rows cols st
          f).1.output_formchar.row_len = 0 ∧
      (term_output_adjust_after_sigwinch rows cols st f).1.output_char.pos %
        (term_output_adjust_after_sigwinch rows cols st
          f).1.output_char.row_len = 0) ∧
    ((term_output_adjust_after_sigwinch 4 15
        (term_output_change .FORMCHAR c7_hex_st c7_file).1
        (term_output_change .FORMCHAR c7_hex_st
          c7_file).2).1.output_formchar.pos = 5 ∧
      (term_output_adjust_after_sigwinch 4 15
        (term_output_change .FORMCHAR c7_hex_st c7_file).1
        (term_output_change .FORMCHAR c7_hex_st
          c7_file).2).1.output_formchar.row_len = 5) := by
  refine ⟨fun rows cols st f hcols => ⟨?_, ?_, ?_⟩, by decide, by decide⟩ <;>
    exact sub_mod_mod _ _

/-- Concrete instance of C7's general part on the scenario state. -/
theorem adjust_realigns_positions_witness :
    (term_output_adjust_after_sigwinch 4 15 c7_hex_st
        c7_file).1.output_formhex.pos %
      (term_output_adjust_after_sigwinch 4 15 c7_hex_st
        c7_file).1.output_formhex.row_len = 0 ∧
    (term_output_adjust_after_sigwinch 4 15 c7_hex_st
        c7_file).1.output_formchar.pos %
      (term_output_adjust_after_sigwinch 4 15 c7_hex_st
        c7_file).1.output_formchar.row_len = 0 ∧
    (term_output_adjust_after_sigwinch 4 15 c7_hex_st
        c7_file).1.output_char.pos %
      (term_output_adjust_after_sigwinch 4 15 c7_hex_st
        c7_file).1.output_char.row_len = 0 :=
  adjust_realigns_positions.1 4 15 c7_hex_st c7_file (by decide)

/-- Claim C8: enabling raw mode while already enabled is a warning-only
no-op that reports success (`term_init` returns 0, queues the warning,
performs no `tcsetattr` call and leaves the flag set), and disabling raw
mode while not enabled likewise reports success as a warning-only no-op;
neither warning case fails the call. -/
theorem raw_mode_idempotent (env : RawEnv) (s : RawSt) :
    (s.term_is_init = true →
      (term_init env s).1 = 0 ∧
      (term_init env s).2.term_is_init = s.term_is_init ∧
      (term_init env s).2.tcsetattr_calls = s.tcsetattr_calls ∧
      (term_init env s).2.messages =
        s.messages ++ ["WARNING: Terminal is already initialized!"]) ∧
    (s.term_is_init = false →
      (term_disable_raw_mode env s).1 = 0 ∧
      (term_disable_raw_mode env s).2.term_is_init = s.term_is_init ∧
      (term_disable_raw_mode env s).2.tcsetattr_calls = s.tcsetattr_calls ∧
      (term_disable_raw_mode env s).2.messages =
        s.messages ++ ["WARNING: Terminal was not initialized!"]) := by
  constructor
  · intro h
    simp [term_init, h]
  · intro h
    simp [term_disable_raw_mode, h]

/-- Concrete instances of C8: both warning paths with every underlying
call healthy. -/
theorem raw_mode_idempotent_witness :
    ((term_init ⟨true, true, true, true, true, true, true, true⟩
        ⟨true, 1, []⟩).1 = 0 ∧
      (term_init ⟨true, true, true, true, true, true, true, true⟩
        ⟨true, 1, []⟩).2.term_is_init = true ∧
      (term_init ⟨true, true, true, true, true, true, true, true⟩
        ⟨true, 1, []⟩).2.tcsetattr_calls = 1 ∧
      (term_init ⟨true, true, true, true, true, true, true, true⟩
        ⟨true, 1, []⟩).2.messages =
        [] ++ ["WARNING: Terminal is already initialized!"]) ∧
    ((term_disable_raw_mode ⟨true, true, true, true, true, true, true, true⟩
        ⟨false, 1, []⟩).1 = 0 ∧
      (term_disable_raw_mode ⟨true, true, true, true, true, true, true, true⟩
        ⟨false, 1, []⟩).2.term_is_init = false ∧
      (term_disable_raw_mode ⟨true, true, true, true, true, true, true, true⟩
        ⟨false, 1, []⟩).2.tcsetattr_calls = 1 ∧
      (term_disable_raw_mode ⟨true, true, true, true, true, true, true, true⟩
        ⟨false, 1, []⟩).2.messages =
        [] ++ ["WARNING: Terminal was not initialized!"]) :=
  ⟨(raw_mode_idempotent ⟨true, true, true, true, true, true, true, true⟩
      ⟨true, 1, []⟩).1 rfl,
   (raw_mode_idempotent ⟨true, true, true, true, true, true, true, true⟩
      ⟨false, 1, []⟩).2 rfl⟩

/-- Claim C9: the window-size query rejects exactly the geometries with
a zero row or column count; the row widths the resize adjustment
computes (`cols / 3` twice and `cols`) are all nonzero exactly when
`cols ≥ 3`; and the query does not enforce that precondition — it
accepts the 1×1 window, for which the Hex row width is 0 and the modulo
realignment divides by zero in the C code. -/
theorem win_size_row_width_safety (rows cols : Nat) (st : TermSt)
    (f : FileSt) :
    ((term_get_win_size (some (rows, cols))).isSome ↔
      (rows ≠ 0 ∧ cols ≠ 0)) ∧
    (((term_output_adjust_after_sigwinch rows cols st
          f).1.output_formhex.row_len ≠ 0 ∧
      (term_output_adjust_after_sigwinch rows cols st
          f).1.output_formchar.row_len ≠ 0 ∧
      (term_output_adjust_after_sigwinch rows cols st
          f).1.output_char.row_len ≠ 0) ↔ 3 ≤ cols) ∧
    ((term_get_win_size (some (1, 1))).isSome ∧
      (term_output_adjust_after_sigwinch 1 1 st
        f).1.output_formhex.row_len = 0) := by
  refine ⟨?_, ?_, ?_, ?_⟩
  · simp [term_get_win_size]
  · cases hact : st.active <;>
    · simp only [term_output_adjust_after_sigwinch, term_output_save,
        file_tell, hact]
      omega
  · simp [term_get_win_size]
  · cases hact : st.active <;>
    · simp only [term_output_adjust_after_sigwinch, term_output_save,
        file_tell, hact]

/-- Claim C10: `term_screen_refresh` never inspects the result of the
row-preparation step: whatever result code `prep` reports and whatever
partial frame content it managed to build, if the refresh's own two
`ab_append` calls and the final `write` succeed, the refresh writes the
partial buffer (bracketed by the cursor-to-top-left sequences) and
returns success 0, so a row-preparation failure is never propagated to
the event loop. -/
theorem screen_refresh_ignores_prepare_failure (code : Int)
    (partial_rows : List Char) :
    term_screen_refresh (fun ab => (code, ab ++ partial_rows))
        true true true =
      (0, VT100_CUR_TOP_LEFT ++ partial_rows ++ VT100_CUR_TOP_LEFT) := by
  simp [term_screen_refresh, List.append_assoc]

end Rawhexdump
